import Mathlib

/-!
Shallow embedding of the decision logic of the AplosInnovation inventory
restocking and supply-chain analytics system.

The embedding models the pure computational core of
`restocking_system.py` (sales-velocity extractor, average-shipment-time
extractor, restock-recommendation engine) and
`business_insights_decision_making_task3.py` (carrier delivery
performance, top-selling products, inventory shortage classification).

Conventions of the embedding:
* dates are integers (whole days); `julianday(a) - julianday(b)` over DATE
  values is the integer difference of the two day numbers;
* Python / SQLite real arithmetic is modelled over `ℚ`;
* Python `int()` is truncation toward zero, Python `round()` is rounding
  half to even (banker's rounding);
* a Python `dict` produced by a grouped query is an association list;
* the `ZeroDivisionError` that Python raises when a triggered inventory
  pair has `reorder_point == 0` is modelled by `Except.error ()`: the
  whole recommendation computation aborts, as the exception propagates
  out of `calculate_restock_recommendations`;
* SQLite division by zero yields NULL and a NULL comparison is not true,
  which is modelled by an explicit `rate ≠ 0` conjunct in the shortage
  classifier.
-/

/-- Python `int()` applied to a real value: truncation toward zero. -/
def ratTrunc (q : ℚ) : ℤ := q.num.tdiv q.den

/-- Python `round()` to the nearest integer: half-to-even (banker's) rounding. -/
def roundHalfEven (q : ℚ) : ℤ :=
  let f := Rat.floor q
  if q - f < 1/2 then f
  else if (1:ℚ)/2 < q - f then f + 1
  else if f % 2 = 0 then f else f + 1

/-- Python `round(x, 1)`. -/
def round1 (q : ℚ) : ℚ := (roundHalfEven (q * 10) : ℚ) / 10

/-- Python `round(x, 2)`. -/
def round2 (q : ℚ) : ℚ := (roundHalfEven (q * 100) : ℚ) / 100

/-- Python dict lookup `d.get(k)` over an association list. -/
def dictGet {α β : Type} [DecidableEq α] (m : List (α × β)) (k : α) : Option β :=
  (m.find? fun kv => decide (kv.1 = k)).map fun kv => kv.2

/-- `order_status` enum of the `orders` table. -/
inductive OrderStatus
  | Pending | Shipped | Delivered | Canceled
  deriving DecidableEq

/-- `service_level` enum of the `carrier` and `shipment` tables. -/
inductive ServiceLevel
  | Standard | Express | Overnight
  deriving DecidableEq

/-- `shipment_status` enum of the `shipment` table. -/
inductive ShipmentStatus
  | InTransit | Delivered | Delayed
  deriving DecidableEq

/-- A row of the `orders` table. -/
structure OrderRow where
  order_id : String
  customer_id : String
  product_id : String
  order_date : ℤ
  order_status : OrderStatus
  quantity : ℤ
  deriving DecidableEq

/-- A row of the `shipment` table.  `actual_delivery` is nullable. -/
structure ShipmentRow where
  shipment_id : String
  order_id : String
  warehouse_id : String
  carrier_id : String
  service_level : ServiceLevel
  shipment_status : ShipmentStatus
  ship_date : ℤ
  estimated_delivery : ℤ
  actual_delivery : Option ℤ
  tracking_number : String
  deriving DecidableEq

/-- A row of the `inventory` table (the columns the core reads). -/
structure InventoryRow where
  product_id : String
  warehouse_id : String
  stock_quantity : ℤ
  reserved_quantity : ℤ
  deriving DecidableEq

/-- A row of the `product` table. -/
structure ProductRow where
  product_id : String
  product_name : String
  product_category : String
  unit_price : ℚ
  deriving DecidableEq

/-! ### Sales velocity extractor (`calculate_sales_velocity`) -/

/-- The rows of the `orders ⋈ shipment` join that qualify for the sales
velocity query: `o.order_id = s.order_id`, `o.order_date >= cutoff`,
`o.order_status IN ('Shipped', 'Delivered')`.  Each joined row contributes
`(product_id, warehouse_id, quantity)`. -/
def qualifyingSales (orders : List OrderRow) (shipments : List ShipmentRow)
    (cutoff : ℤ) : List (String × String × ℤ) :=
  orders.flatMap fun o => shipments.filterMap fun s =>
    if s.order_id = o.order_id ∧ cutoff ≤ o.order_date ∧
        (o.order_status = OrderStatus.Shipped ∨ o.order_status = OrderStatus.Delivered) then
      some (o.product_id, s.warehouse_id, o.quantity)
    else none

/-- `calculate_sales_velocity`: the grouped query `SUM(quantity)` by
`(product_id, warehouse_id)` over the qualifying join rows, each group
value divided by `days` (units per day).  `cutoff = now - days`. -/
def calculate_sales_velocity (orders : List OrderRow) (shipments : List ShipmentRow)
    (days now : ℤ) : List ((String × String) × ℚ) :=
  let rows := qualifyingSales orders shipments (now - days)
  let keys := (rows.map fun r => (r.1, r.2.1)).dedup
  keys.map fun k =>
    (k, ((((rows.filter fun r => decide ((r.1, r.2.1) = k)).map fun r => r.2.2).sum : ℤ) : ℚ)
          / (days : ℚ))

/-! ### Average shipment time extractor (`get_average_shipment_time`) -/

/-- The delivery durations `actual_delivery - ship_date` of the shipments
of warehouse `w` that have a non-null `actual_delivery` (the rows the
`AVG ... WHERE actual_delivery IS NOT NULL GROUP BY warehouse_id` query
aggregates for `w`). -/
def shipmentDeltas (shipments : List ShipmentRow) (w : String) : List ℚ :=
  shipments.filterMap fun s =>
    match s.actual_delivery with
    | some a => if s.warehouse_id = w then some ((a - s.ship_date : ℤ) : ℚ) else none
    | none => none

/-- `get_average_shipment_time`: maps each warehouse that has at least one
delivered shipment to the average delivery duration, except that a falsy
average (`avg_days if avg_days else 5.0` in the source, i.e. exactly `0.0`)
is replaced by the default of 5 days. -/
def get_average_shipment_time (shipments : List ShipmentRow) : List (String × ℚ) :=
  let keys := (shipments.filterMap fun s =>
    if s.actual_delivery.isSome then some s.warehouse_id else none).dedup
  keys.map fun w =>
    let ds := shipmentDeltas shipments w
    let avg := ds.sum / (ds.length : ℚ)
    (w, if avg = 0 then 5 else avg)

/-! ### Recommendation engine (`calculate_restock_recommendations`) -/

/-- `available_quantity` as computed by `get_current_inventory`. -/
def available_quantity (row : InventoryRow) : ℤ :=
  row.stock_quantity - row.reserved_quantity

/-- Velocity used for a pair: the sales-velocity mapping value, defaulting
to `0.1` when the pair is absent. -/
def velocityOf (sv : List ((String × String) × ℚ)) (p w : String) : ℚ :=
  (dictGet sv (p, w)).getD (1/10)

/-- Shipment time used for a warehouse: the mapping value, defaulting to
`5.0` when the warehouse is absent. -/
def avgShipmentTimeOf (st : List (String × ℚ)) (w : String) : ℚ :=
  (dictGet st w).getD 5

/-- `reorder_point = velocity * (avg_shipment_time + restock_threshold_days)`. -/
def reorderPointOf (sv : List ((String × String) × ℚ)) (st : List (String × ℚ))
    (rtd : ℤ) (p w : String) : ℚ :=
  velocityOf sv p w * (avgShipmentTimeOf st w + rtd)

/-- `target_stock = safety_stock + velocity * 30` where
`safety_stock = velocity * safety_stock_days`. -/
def targetStockOf (sv : List ((String × String) × ℚ)) (ssd : ℤ) (p w : String) : ℚ :=
  velocityOf sv p w * ssd + velocityOf sv p w * 30

/-- One emitted recommendation record (the dict built by
`calculate_restock_recommendations`, with the source's rounding of the
displayed fields). -/
structure RestockRecommendation where
  product_id : String
  warehouse_id : String
  recommended_restock_quantity : ℤ
  current_available_stock : ℤ
  sales_velocity_per_day : ℚ
  avg_shipment_time_days : ℚ
  reorder_point : ℚ
  safety_stock : ℚ
  target_stock : ℚ
  urgency_score : ℚ
  deriving DecidableEq

/-- The body of the per-pair loop of `calculate_restock_recommendations`:
skip the pair when `available_qty > reorder_point`, otherwise build the
recommendation dict; evaluating `urgency_score` divides by
`reorder_point`, so a triggered pair with `reorder_point == 0` raises
(`Except.error ()`). -/
def processRow (sv : List ((String × String) × ℚ)) (st : List (String × ℚ))
    (ssd rtd : ℤ) (row : InventoryRow) : Except Unit (Option RestockRecommendation) :=
  let available_qty := available_quantity row
  let velocity := velocityOf sv row.product_id row.warehouse_id
  let avg_shipment_time := avgShipmentTimeOf st row.warehouse_id
  let safety_stock := velocity * ssd
  let reorder_point := velocity * (avg_shipment_time + rtd)
  if (available_qty : ℚ) ≤ reorder_point then
    let target_stock := safety_stock + velocity * 30
    let recommended_qty := max 1 (ratTrunc (target_stock - available_qty))
    if reorder_point = 0 then Except.error ()
    else Except.ok (some {
      product_id := row.product_id
      warehouse_id := row.warehouse_id
      recommended_restock_quantity := recommended_qty
      current_available_stock := available_qty
      sales_velocity_per_day := round2 velocity
      avg_shipment_time_days := round1 avg_shipment_time
      reorder_point := round1 reorder_point
      safety_stock := round1 safety_stock
      target_stock := round1 target_stock
      urgency_score := round1 ((reorder_point - available_qty) / reorder_point * 100) })
  else Except.ok none

/-- The full per-pair loop, in inventory order, aborting at the first row
that raises. -/
def processRows (sv : List ((String × String) × ℚ)) (st : List (String × ℚ))
    (ssd rtd : ℤ) : List InventoryRow → Except Unit (List RestockRecommendation)
  | [] => Except.ok []
  | row :: rest =>
    match processRow sv st ssd rtd row with
    | Except.error e => Except.error e
    | Except.ok none => processRows sv st ssd rtd rest
    | Except.ok (some r) =>
      match processRows sv st ssd rtd rest with
      | Except.error e => Except.error e
      | Except.ok rs => Except.ok (r :: rs)

/-- Stable insertion into a list sorted descending by `key`. -/
def orderedInsertDescBy {α : Type} (key : α → ℚ) (a : α) : List α → List α
  | [] => [a]
  | b :: l => if key b ≤ key a then a :: b :: l else b :: orderedInsertDescBy key a l

/-- Stable sort, descending by `key` (Python's
`list.sort(key=..., reverse=True)`). -/
def sortDescBy {α : Type} (key : α → ℚ) : List α → List α
  | [] => []
  | a :: l => orderedInsertDescBy key a (sortDescBy key l)

/-- `calculate_restock_recommendations` over already-extracted velocity,
shipment-time and inventory data: process every inventory pair, then sort
the emitted records descending by urgency score. -/
def calculate_restock_recommendations (sv : List ((String × String) × ℚ))
    (st : List (String × ℚ)) (inventory : List InventoryRow) (ssd rtd : ℤ) :
    Except Unit (List RestockRecommendation) :=
  (processRows sv st ssd rtd inventory).map (sortDescBy fun r => r.urgency_score)

/-! ### Carrier delivery performance (`calculate_carrier_delivery_performance`) -/

/-- Projection of a shipment row with a non-null `actual_delivery` (the
rows passing the `WHERE s.actual_delivery IS NOT NULL` filter). -/
structure DeliveredShipment where
  carrier_id : String
  service_level : ServiceLevel
  ship_date : ℤ
  estimated_delivery : ℤ
  actual_delivery : ℤ
  deriving DecidableEq

/-- The delivered shipments of a shipment list. -/
def deliveredShipments (shipments : List ShipmentRow) : List DeliveredShipment :=
  shipments.filterMap fun s =>
    match s.actual_delivery with
    | some a => some {
        carrier_id := s.carrier_id
        service_level := s.service_level
        ship_date := s.ship_date
        estimated_delivery := s.estimated_delivery
        actual_delivery := a }
    | none => none

/-- The `(carrier_id, service_level)` group of delivered shipments. -/
def carrierGroup (shipments : List ShipmentRow) (c : String) (sl : ServiceLevel) :
    List DeliveredShipment :=
  (deliveredShipments shipments).filter fun d =>
    decide (d.carrier_id = c ∧ d.service_level = sl)

/-- The SQL column
`COUNT(CASE WHEN actual_delivery <= estimated_delivery THEN 1 END) * 100.0 / COUNT(*)`
of one group. -/
def onTimePercentage (g : List DeliveredShipment) : ℚ :=
  (((g.filter fun d => decide (d.actual_delivery ≤ d.estimated_delivery)).length : ℚ) * 100)
    / (g.length : ℚ)

/-- Minimum of a list of rationals (0 for the empty list, which no group is). -/
def listMinQ : List ℚ → ℚ
  | [] => 0
  | v :: vs => vs.foldl min v

/-- Maximum of a list of rationals (0 for the empty list, which no group is). -/
def listMaxQ : List ℚ → ℚ
  | [] => 0
  | v :: vs => vs.foldl max v

/-- One output row of `calculate_carrier_delivery_performance`, with the
source's rounding of the numeric columns to 2 decimals. -/
structure CarrierPerfRow where
  carrier_id : String
  service_level : ServiceLevel
  total_shipments : ℕ
  avg_delivery_days : ℚ
  min_delivery_days : ℚ
  max_delivery_days : ℚ
  avg_delay_days : ℚ
  on_time_percentage : ℚ
  deriving DecidableEq

/-- `calculate_carrier_delivery_performance`: per `(carrier_id,
service_level)` group of delivered shipments, the count, avg/min/max
delivery days, average delay and on-time percentage, each numeric column
rounded to 2 decimals. -/
def calculate_carrier_delivery_performance (shipments : List ShipmentRow) :
    List CarrierPerfRow :=
  let ds := deliveredShipments shipments
  let keys := (ds.map fun d => (d.carrier_id, d.service_level)).dedup
  keys.map fun k =>
    let g := carrierGroup shipments k.1 k.2
    let times := g.map fun d => ((d.actual_delivery - d.ship_date : ℤ) : ℚ)
    let delays := g.map fun d => ((d.actual_delivery - d.estimated_delivery : ℤ) : ℚ)
    { carrier_id := k.1
      service_level := k.2
      total_shipments := g.length
      avg_delivery_days := round2 (times.sum / (times.length : ℚ))
      min_delivery_days := round2 (listMinQ times)
      max_delivery_days := round2 (listMaxQ times)
      avg_delay_days := round2 (delays.sum / (delays.length : ℚ))
      on_time_percentage := round2 (onTimePercentage g) }

/-! ### Top-selling products (`identify_top_selling_products`) -/

/-- The orders qualifying for the top-products query:
`order_date >= cutoff` and `order_status IN ('Shipped', 'Delivered')`. -/
def qualifyingOrders (orders : List OrderRow) (cutoff : ℤ) : List OrderRow :=
  orders.filter fun o =>
    decide (cutoff ≤ o.order_date ∧
      (o.order_status = OrderStatus.Shipped ∨ o.order_status = OrderStatus.Delivered))

/-- One output row of `identify_top_selling_products`. -/
structure TopProductRow where
  product_id : String
  product_name : String
  product_category : String
  unit_price : ℚ
  total_units_sold : ℤ
  total_orders : ℕ
  total_revenue : ℚ
  avg_order_quantity : ℚ
  unique_customers : ℕ
  deriving DecidableEq

/-- `identify_top_selling_products`: join qualifying orders to products,
group by product, aggregate, order by total units sold descending and keep
the first 5 rows (`LIMIT 5`).  `cutoff = now - days`. -/
def identify_top_selling_products (products : List ProductRow) (orders : List OrderRow)
    (days now : ℤ) : List TopProductRow :=
  let qs := qualifyingOrders orders (now - days)
  let groups := products.filterMap fun p =>
    let os := qs.filter fun o => decide (o.product_id = p.product_id)
    if os.isEmpty then none
    else some {
      product_id := p.product_id
      product_name := p.product_name
      product_category := p.product_category
      unit_price := round2 p.unit_price
      total_units_sold := (os.map fun o => o.quantity).sum
      total_orders := ((os.map fun o => o.order_id).dedup).length
      total_revenue := round2 ((os.map fun o => (o.quantity : ℚ) * p.unit_price).sum)
      avg_order_quantity := round2 ((((os.map fun o => o.quantity).sum : ℤ) : ℚ)
        / (os.length : ℚ))
      unique_customers := ((os.map fun o => o.customer_id).dedup).length }
  (sortDescBy (fun t => (t.total_units_sold : ℚ)) groups).take 5

/-! ### Inventory shortage classifier (`analyze_inventory_shortages`) -/

/-- The four values of the `stock_status` CASE expression. -/
inductive StockStatus
  | OUT_OF_STOCK | CRITICAL | LOW | ADEQUATE
  deriving DecidableEq

/-- The `stock_status` CASE expression of `analyze_inventory_shortages`,
applied to one inventory row: `rate` is
`COALESCE(da.daily_demand_rate, 0.1)`.  In SQLite `available_stock / 0.0`
is NULL and a NULL comparison is not true, hence the explicit `rate ≠ 0`
conjuncts. -/
def stock_status (available_stock : ℤ) (rate : ℚ) : StockStatus :=
  if available_stock = 0 then StockStatus.OUT_OF_STOCK
  else if rate ≠ 0 ∧ (available_stock : ℚ) / rate < 7 then StockStatus.CRITICAL
  else if rate ≠ 0 ∧ (available_stock : ℚ) / rate < 14 then StockStatus.LOW
  else StockStatus.ADEQUATE

/-- The `days_of_stock` CASE expression of the same query. -/
def days_of_stock (available_stock : ℤ) (rate : ℚ) : ℚ :=
  if available_stock = 0 then 0
  else if 0 < rate then (available_stock : ℚ) / rate
  else 999

/-! ### Helper lemmas -/

theorem ratFloor_eq_intFloor (q : ℚ) : (Rat.floor q : ℤ) = ⌊q⌋ := by
  rw [Rat.floor_def', ← Rat.floor_def]

theorem roundHalfEven_eq_floor_or (q : ℚ) :
    roundHalfEven q = ⌊q⌋ ∨ roundHalfEven q = ⌊q⌋ + 1 := by
  have hd : roundHalfEven q =
      if q - (⌊q⌋ : ℚ) < 1/2 then ⌊q⌋
      else if (1:ℚ)/2 < q - (⌊q⌋ : ℚ) then ⌊q⌋ + 1
      else if ⌊q⌋ % 2 = 0 then ⌊q⌋ else ⌊q⌋ + 1 := by
    unfold roundHalfEven
    rw [ratFloor_eq_intFloor]
  rw [hd]
  by_cases h1 : q - (⌊q⌋ : ℚ) < 1/2
  · rw [if_pos h1]; exact Or.inl rfl
  · rw [if_neg h1]
    by_cases h2 : (1:ℚ)/2 < q - (⌊q⌋ : ℚ)
    · rw [if_pos h2]; exact Or.inr rfl
    · rw [if_neg h2]
      by_cases h3 : ⌊q⌋ % 2 = 0
      · rw [if_pos h3]; exact Or.inl rfl
      · rw [if_neg h3]; exact Or.inr rfl

theorem roundHalfEven_nonneg {q : ℚ} (h : 0 ≤ q) : 0 ≤ roundHalfEven q := by
  rcases roundHalfEven_eq_floor_or q with h1 | h1 <;> rw [h1]
  · exact Int.floor_nonneg.mpr h
  · have := Int.floor_nonneg.mpr h
    omega

theorem roundHalfEven_le_intCast {q : ℚ} {n : ℤ} (h : q ≤ n) :
    roundHalfEven q ≤ n := by
  by_cases hq : q = n
  · subst hq
    unfold roundHalfEven
    rw [ratFloor_eq_intFloor, Int.floor_intCast]
    simp
  · have hlt : q < (n : ℚ) := lt_of_le_of_ne h hq
    have hfl : ⌊q⌋ < n := Int.floor_lt.mpr hlt
    rcases roundHalfEven_eq_floor_or q with h1 | h1 <;> rw [h1] <;> omega

theorem round2_nonneg {q : ℚ} (h : 0 ≤ q) : 0 ≤ round2 q := by
  unfold round2
  have : (0 : ℚ) ≤ (roundHalfEven (q * 100) : ℚ) := by
    exact_mod_cast roundHalfEven_nonneg (by positivity)
  positivity

theorem round2_le_100 {q : ℚ} (h : q ≤ 100) : round2 q ≤ 100 := by
  unfold round2
  have h1 : q * 100 ≤ ((10000 : ℤ) : ℚ) := by push_cast; nlinarith
  have h2 : roundHalfEven (q * 100) ≤ 10000 := roundHalfEven_le_intCast h1
  have h3 : (roundHalfEven (q * 100) : ℚ) ≤ 10000 := by exact_mod_cast h2
  linarith

theorem mem_orderedInsertDescBy {α : Type} (key : α → ℚ) (a x : α) (l : List α) :
    x ∈ orderedInsertDescBy key a l ↔ x = a ∨ x ∈ l := by
  induction l with
  | nil => simp [orderedInsertDescBy]
  | cons b t ih =>
    unfold orderedInsertDescBy
    split
    · simp [or_comm, or_assoc, or_left_comm]
    · simp only [List.mem_cons, ih]
      tauto

theorem mem_sortDescBy {α : Type} (key : α → ℚ) (x : α) (l : List α) :
    x ∈ sortDescBy key l ↔ x ∈ l := by
  induction l with
  | nil => simp [sortDescBy]
  | cons a t ih =>
    unfold sortDescBy
    rw [mem_orderedInsertDescBy, ih]
    simp

theorem pairwise_orderedInsertDescBy {α : Type} (key : α → ℚ) (a : α) (l : List α)
    (h : l.Pairwise fun x y => key y ≤ key x) :
    (orderedInsertDescBy key a l).Pairwise fun x y => key y ≤ key x := by
  induction l with
  | nil => simp [orderedInsertDescBy]
  | cons b t ih =>
    rw [List.pairwise_cons] at h
    unfold orderedInsertDescBy
    split
    · rename_i hba
      refine List.pairwise_cons.mpr ⟨?_, List.pairwise_cons.mpr ⟨h.1, h.2⟩⟩
      intro y hy
      rcases List.mem_cons.mp hy with rfl | hy
      · exact hba
      · exact le_trans (h.1 y hy) hba
    · rename_i hba
      push_neg at hba
      refine List.pairwise_cons.mpr ⟨?_, ih h.2⟩
      intro y hy
      rcases (mem_orderedInsertDescBy key a y t).mp hy with rfl | hy
      · exact le_of_lt hba
      · exact h.1 y hy

theorem pairwise_sortDescBy {α : Type} (key : α → ℚ) (l : List α) :
    (sortDescBy key l).Pairwise fun x y => key y ≤ key x := by
  induction l with
  | nil => simp [sortDescBy]
  | cons a t ih => exact pairwise_orderedInsertDescBy key a _ ih

theorem exceptMap_eq_ok {α β : Type} {f : α → β} {e : Except Unit α} {b : β}
    (h : e.map f = Except.ok b) : ∃ a, e = Except.ok a ∧ b = f a := by
  cases e with
  | error u => simp [Except.map] at h
  | ok a => exact ⟨a, rfl, by simpa [Except.map] using h.symm⟩

theorem dictGet_mem {α β : Type} [DecidableEq α] {m : List (α × β)} {k : α} {v : β}
    (h : dictGet m k = some v) : (k, v) ∈ m := by
  unfold dictGet at h
  cases hf : m.find? fun kv => decide (kv.1 = k) with
  | none => rw [hf] at h; simp at h
  | some kv =>
    rw [hf] at h
    have hmem := List.mem_of_find?_eq_some hf
    have hk1 := List.find?_some hf
    simp only [decide_eq_true_eq] at hk1
    have hk : kv.1 = k := hk1
    have hv : kv.2 = v := by simpa using h
    have hkv : (k, v) = kv := by
      obtain ⟨a, b⟩ := kv
      simp only at hk hv
      rw [hk, hv]
    rw [hkv]
    exact hmem

theorem velocityOf_pos {sv : List ((String × String) × ℚ)}
    (hsv : ∀ kv ∈ sv, 0 < kv.2) (p w : String) : 0 < velocityOf sv p w := by
  unfold velocityOf
  cases hf : dictGet sv (p, w) with
  | none => norm_num
  | some v =>
    simp only [Option.getD_some]
    exact hsv _ (dictGet_mem hf)

theorem sum_pos_of_one_le {l : List ℤ} (h : ∀ x ∈ l, 1 ≤ x) (hne : l ≠ []) :
    0 < l.sum := by
  induction l with
  | nil => exact absurd rfl hne
  | cons x t ih =>
    rw [List.sum_cons]
    have hx := h x (List.mem_cons_self x t)
    have ht : 0 ≤ t.sum := by
      rcases List.eq_nil_or_concat t with rfl | _
      · simp
      · rcases t with _ | ⟨y, t⟩
        · simp
        · exact le_of_lt (ih (fun z hz => h z (List.mem_cons_of_mem _ hz)) (by simp))
    omega

theorem processRow_ok_some {sv : List ((String × String) × ℚ)} {st : List (String × ℚ)}
    {ssd rtd : ℤ} {row : InventoryRow} {r : RestockRecommendation}
    (h : processRow sv st ssd rtd row = Except.ok (some r)) :
    r.product_id = row.product_id ∧ r.warehouse_id = row.warehouse_id ∧
    r.current_available_stock = available_quantity row ∧
    (available_quantity row : ℚ) ≤ reorderPointOf sv st rtd row.product_id row.warehouse_id ∧
    r.recommended_restock_quantity =
      max 1 (ratTrunc (targetStockOf sv ssd row.product_id row.warehouse_id
        - available_quantity row)) := by
  simp only [processRow] at h
  split at h
  · split at h
    · exact absurd h (by simp)
    · rw [Except.ok.injEq, Option.some.injEq] at h
      subst h
      refine ⟨rfl, rfl, rfl, by assumption, ?_⟩
      simp [targetStockOf]
  · exact absurd h (by simp)

theorem processRow_of_not_triggered {sv : List ((String × String) × ℚ)}
    {st : List (String × ℚ)} {ssd rtd : ℤ} {row : InventoryRow}
    (h : reorderPointOf sv st rtd row.product_id row.warehouse_id
      < (available_quantity row : ℚ)) :
    processRow sv st ssd rtd row = Except.ok none := by
  simp only [reorderPointOf] at h
  simp only [processRow]
  rw [if_neg (not_le.mpr h)]

theorem processRows_ok_mem {sv : List ((String × String) × ℚ)} {st : List (String × ℚ)}
    {ssd rtd : ℤ} :
    ∀ {inv : List InventoryRow} {rs : List RestockRecommendation},
      processRows sv st ssd rtd inv = Except.ok rs →
      ∀ {r : RestockRecommendation}, r ∈ rs →
      ∃ row ∈ inv, processRow sv st ssd rtd row = Except.ok (some r) := by
  intro inv
  induction inv with
  | nil =>
    intro rs h r hr
    simp only [processRows, Except.ok.injEq] at h
    subst h
    simp at hr
  | cons row rest ih =>
    intro rs h r hr
    simp only [processRows] at h
    cases hp : processRow sv st ssd rtd row with
    | error e => rw [hp] at h; simp at h
    | ok o =>
      rw [hp] at h
      cases o with
      | none =>
        obtain ⟨row', hrow', hpr⟩ := ih h hr
        exact ⟨row', List.mem_cons_of_mem _ hrow', hpr⟩
      | some r0 =>
        cases hrec : processRows sv st ssd rtd rest with
        | error e => rw [hrec] at h; simp at h
        | ok rs0 =>
          rw [hrec] at h
          simp only [Except.ok.injEq] at h
          subst h
          rcases List.mem_cons.mp hr with rfl | hr0
          · exact ⟨row, List.mem_cons_self row rest, hp⟩
          · obtain ⟨row', hrow', hpr⟩ := ih hrec hr0
            exact ⟨row', List.mem_cons_of_mem _ hrow', hpr⟩

theorem calc_ok_mem {sv : List ((String × String) × ℚ)} {st : List (String × ℚ)}
    {inv : List InventoryRow} {ssd rtd : ℤ} {out : List RestockRecommendation}
    (h : calculate_restock_recommendations sv st inv ssd rtd = Except.ok out)
    {r : RestockRecommendation} (hr : r ∈ out) :
    ∃ row ∈ inv, processRow sv st ssd rtd row = Except.ok (some r) := by
  obtain ⟨rs, hrs, hout⟩ := exceptMap_eq_ok h
  subst hout
  exact processRows_ok_mem hrs ((mem_sortDescBy _ r rs).mp hr)

/-! ### Claims about the recommendation engine -/

/-- Modelled from the spec, for refinement comparison only: the spec's
recommended quantity `max(1, round(target_stock − available_quantity))`,
with `round` the spec's (Python) rounding to the nearest integer. -/
def recommended_quantity_spec (sv : List ((String × String) × ℚ)) (ssd : ℤ)
    (p w : String) (avail : ℤ) : ℤ :=
  max 1 (roundHalfEven (targetStockOf sv ssd p w - avail))

/-- Example input for C1: velocity 2/30 for the single pair, so
`target_stock − available = 44/15 ≈ 2.93`. -/
def svC1 : List ((String × String) × ℚ) := [(("P1", "W1"), 2/30)]

/-- Example inventory for C1: a single pair with zero available stock. -/
def invC1 : List InventoryRow := [⟨"P1", "W1", 0, 0⟩]

/-- The single record emitted on the C1 example input. -/
def recC1 : RestockRecommendation :=
  ((calculate_restock_recommendations svC1 [] invC1 14 7).toOption.getD []).getD 0
    ⟨"", "", 0, 0, 0, 0, 0, 0, 0, 0⟩

/-- C1 (counterexample): on an input whose triggered pair has
`target_stock − available = 44/15`, the emitted recommended quantity is 2
(truncation), while the claimed `max(1, round(target_stock −
available_quantity))` is 3: the emitted quantity is not the rounded
difference. -/
theorem C1_counterexample :
    calculate_restock_recommendations svC1 [] invC1 14 7 = Except.ok [recC1] ∧
    recC1.recommended_restock_quantity = 2 ∧
    recommended_quantity_spec svC1 14 "P1" "W1" 0 = 3 :=
  ⟨by with_unfolding_all rfl, by with_unfolding_all rfl, by with_unfolding_all rfl⟩

/-- C1 (amended): for every triggered pair the emitted recommended
quantity equals `max(1, int(target_stock − available_quantity))`, where
`int` is Python truncation toward zero (the source's `int(...)`), not
rounding. -/
theorem C1_recommended_quantity_truncated (sv : List ((String × String) × ℚ))
    (st : List (String × ℚ)) (inv : List InventoryRow) (ssd rtd : ℤ)
    (out : List RestockRecommendation)
    (h : calculate_restock_recommendations sv st inv ssd rtd = Except.ok out)
    (r : RestockRecommendation) (hr : r ∈ out) :
    r.recommended_restock_quantity =
      max 1 (ratTrunc (targetStockOf sv ssd r.product_id r.warehouse_id
        - r.current_available_stock)) := by
  obtain ⟨row, _, hpr⟩ := calc_ok_mem h hr
  obtain ⟨hp, hw, hav, _, hrec⟩ := processRow_ok_some hpr
  rw [hp, hw, hav, hrec]

/-- C1 (witness): the amended statement evaluated on the C1 example. -/
theorem C1_witness :
    calculate_restock_recommendations svC1 [] invC1 14 7 = Except.ok [recC1] ∧
    recC1 ∈ [recC1] ∧
    recC1.recommended_restock_quantity =
      max 1 (ratTrunc (targetStockOf svC1 14 recC1.product_id recC1.warehouse_id
        - recC1.current_available_stock)) :=
  ⟨by with_unfolding_all rfl, List.mem_singleton.mpr rfl,
    C1_recommended_quantity_truncated svC1 [] invC1 14 7 [recC1]
      (by with_unfolding_all rfl) recC1 (List.mem_singleton.mpr rfl)⟩

/-- Velocity mapping for C2: an explicit velocity of exactly 0. -/
def svC2 : List ((String × String) × ℚ) := [(("P1", "W1"), 0)]

/-- Inventory for C2: the pair has zero available stock, so it triggers
with `reorder_point = 0`. -/
def invC2 : List InventoryRow := [⟨"P1", "W1", 0, 0⟩]

/-- C2: with an explicit velocity of exactly 0 the triggered pair has
`reorder_point = 0` and the urgency-score division raises: the
computation aborts with an error instead of returning a result — the
division by zero is not guarded. -/
theorem C2_division_by_zero_unguarded :
    calculate_restock_recommendations svC2 [] invC2 14 7 = Except.error () := by
  with_unfolding_all rfl

/-- C4: a pair with `available_quantity > reorder_point` is never emitted
(inventory keys are unique, as the table's primary key guarantees). -/
theorem C4_not_triggered_not_emitted (sv : List ((String × String) × ℚ))
    (st : List (String × ℚ)) (inv : List InventoryRow) (ssd rtd : ℤ)
    (out : List RestockRecommendation)
    (hnodup : (inv.map fun row => (row.product_id, row.warehouse_id)).Nodup)
    (h : calculate_restock_recommendations sv st inv ssd rtd = Except.ok out)
    (row : InventoryRow) (hrow : row ∈ inv)
    (htrig : reorderPointOf sv st rtd row.product_id row.warehouse_id
      < (available_quantity row : ℚ)) :
    ∀ r ∈ out, ¬(r.product_id = row.product_id ∧ r.warehouse_id = row.warehouse_id) := by
  rintro r hr ⟨hp, hw⟩
  obtain ⟨row', hrow', hpr⟩ := calc_ok_mem h hr
  obtain ⟨hp', hw', _, htrig', _⟩ := processRow_ok_some hpr
  have hkeys : (row'.product_id, row'.warehouse_id) = (row.product_id, row.warehouse_id) := by
    rw [← hp', ← hw', hp, hw]
  have heq : row' = row := List.inj_on_of_nodup_map hnodup hrow' hrow hkeys
  rw [heq] at htrig'
  exact absurd htrig' (not_le.mpr htrig)

/-- Velocity mapping for C4: the second pair sells 1 unit/day. -/
def svC4 : List ((String × String) × ℚ) := [(("P2", "W1"), 1)]

/-- Inventory for C4: the first row is far above its reorder point, the
second row triggers. -/
def invC4 : List InventoryRow := [⟨"P1", "W1", 100, 0⟩, ⟨"P2", "W1", 0, 0⟩]

/-- The first row of the C4 example inventory. -/
def rowC4 : InventoryRow := ⟨"P1", "W1", 100, 0⟩

/-- The single record emitted on the C4 example input. -/
def recC4 : RestockRecommendation :=
  ((calculate_restock_recommendations svC4 [] invC4 14 7).toOption.getD []).getD 0
    ⟨"", "", 0, 0, 0, 0, 0, 0, 0, 0⟩

/-- C4 (witness): on the C4 example, the untriggered pair (P1, W1) is not
the pair of the one emitted record. -/
theorem C4_witness :
    (invC4.map fun row => (row.product_id, row.warehouse_id)).Nodup ∧
    calculate_restock_recommendations svC4 [] invC4 14 7 = Except.ok [recC4] ∧
    rowC4 ∈ invC4 ∧
    reorderPointOf svC4 [] 7 rowC4.product_id rowC4.warehouse_id
      < (available_quantity rowC4 : ℚ) ∧
    ¬(recC4.product_id = rowC4.product_id ∧ recC4.warehouse_id = rowC4.warehouse_id) :=
  ⟨of_decide_eq_true (by with_unfolding_all rfl),
   by with_unfolding_all rfl,
   of_decide_eq_true (by with_unfolding_all rfl),
   of_decide_eq_true (by with_unfolding_all rfl),
   C4_not_triggered_not_emitted svC4 [] invC4 14 7 [recC4]
     (of_decide_eq_true (by with_unfolding_all rfl))
     (by with_unfolding_all rfl)
     rowC4
     (of_decide_eq_true (by with_unfolding_all rfl))
     (of_decide_eq_true (by with_unfolding_all rfl))
     recC4 (List.mem_singleton.mpr rfl)⟩

/-- C5: the returned recommendation list is sorted by urgency score in
non-increasing order: each adjacent pair satisfies
`urgency[i] ≥ urgency[i+1]`. -/
theorem C5_sorted_by_urgency_desc (sv : List ((String × String) × ℚ))
    (st : List (String × ℚ)) (inv : List InventoryRow) (ssd rtd : ℤ)
    (out : List RestockRecommendation)
    (h : calculate_restock_recommendations sv st inv ssd rtd = Except.ok out) :
    out.Chain' fun a b => b.urgency_score ≤ a.urgency_score := by
  obtain ⟨rs, _, hout⟩ := exceptMap_eq_ok h
  subst hout
  exact (pairwise_sortDescBy _ rs).chain'

/-- Velocity mapping for C5. -/
def svC5 : List ((String × String) × ℚ) := [(("P1", "W1"), 1), (("P2", "W1"), 1)]

/-- Inventory for C5: two triggered pairs with different urgencies. -/
def invC5 : List InventoryRow := [⟨"P1", "W1", 0, 0⟩, ⟨"P2", "W1", 10, 0⟩]

/-- The output list on the C5 example input. -/
def outC5 : List RestockRecommendation :=
  (calculate_restock_recommendations svC5 [] invC5 14 7).toOption.getD []

/-- C5 (witness): the sortedness statement evaluated on the C5 example. -/
theorem C5_witness :
    calculate_restock_recommendations svC5 [] invC5 14 7 = Except.ok outC5 ∧
    outC5.Chain' (fun a b => b.urgency_score ≤ a.urgency_score) :=
  ⟨by with_unfolding_all rfl,
   C5_sorted_by_urgency_desc svC5 [] invC5 14 7 outC5 (by with_unfolding_all rfl)⟩

/-- C6: every emitted recommendation has recommended quantity at least 1,
no matter the sign of `target_stock − available_quantity`. -/
theorem C6_recommended_at_least_one (sv : List ((String × String) × ℚ))
    (st : List (String × ℚ)) (inv : List InventoryRow) (ssd rtd : ℤ)
    (out : List RestockRecommendation)
    (h : calculate_restock_recommendations sv st inv ssd rtd = Except.ok out) :
    ∀ r ∈ out, 1 ≤ r.recommended_restock_quantity := by
  intro r hr
  obtain ⟨row, _, hpr⟩ := calc_ok_mem h hr
  obtain ⟨_, _, _, _, hrec⟩ := processRow_ok_some hpr
  rw [hrec]
  exact le_max_left _ _

/-- Velocity mapping for C6: a negative velocity makes
`target_stock − available_quantity` negative on a triggered pair, so the
floor of 1 unit is exercised. -/
def svC6 : List ((String × String) × ℚ) := [(("P1", "W1"), -1)]

/-- Inventory for C6: available is -20, the pair triggers
(`-20 ≤ reorder_point = -12`) and `target_stock − available = -24 < 0`. -/
def invC6 : List InventoryRow := [⟨"P1", "W1", 0, 20⟩]

/-- The single record emitted on the C6 example input. -/
def recC6 : RestockRecommendation :=
  ((calculate_restock_recommendations svC6 [] invC6 14 7).toOption.getD []).getD 0
    ⟨"", "", 0, 0, 0, 0, 0, 0, 0, 0⟩

/-- C6 (witness): the statement evaluated on the C6 example. -/
theorem C6_witness :
    calculate_restock_recommendations svC6 [] invC6 14 7 = Except.ok [recC6] ∧
    1 ≤ recC6.recommended_restock_quantity :=
  ⟨by with_unfolding_all rfl,
   C6_recommended_at_least_one svC6 [] invC6 14 7 [recC6]
     (by with_unfolding_all rfl) recC6 (List.mem_singleton.mpr rfl)⟩

/-! ### Claims about the average shipment time extractor -/

theorem dictGet_map_keys {β : Type} (keys : List String) (val : String → β) (w : String) :
    dictGet (keys.map fun k => (k, val k)) w =
      if w ∈ keys then some (val w) else none := by
  induction keys with
  | nil => simp [dictGet]
  | cons k ks ih =>
    by_cases hk : k = w
    · subst hk
      simp [dictGet, List.find?]
    · unfold dictGet at ih ⊢
      rw [List.map_cons, List.find?_cons_of_neg _ (by simpa using hk), ih]
      simp [List.mem_cons, hk, Ne.symm hk]

theorem mem_shipKeys_iff (shipments : List ShipmentRow) (w : String) :
    w ∈ (shipments.filterMap fun s =>
        if s.actual_delivery.isSome then some s.warehouse_id else none) ↔
      shipmentDeltas shipments w ≠ [] := by
  rw [List.mem_filterMap]
  constructor
  · rintro ⟨s, hs, hsome⟩
    by_cases ha : s.actual_delivery.isSome
    · rw [if_pos ha] at hsome
      obtain ⟨a, haa⟩ := Option.isSome_iff_exists.mp ha
      have hw : s.warehouse_id = w := Option.some.inj hsome
      intro hnil
      have hmem : ((a - s.ship_date : ℤ) : ℚ) ∈ shipmentDeltas shipments w := by
        unfold shipmentDeltas
        rw [List.mem_filterMap]
        refine ⟨s, hs, ?_⟩
        rw [haa]
        simp [hw]
      rw [hnil] at hmem
      simp at hmem
    · rw [if_neg ha] at hsome
      simp at hsome
  · intro h
    rcases hne : shipmentDeltas shipments w with _ | ⟨d, ds⟩
    · exact absurd hne h
    · have hd : d ∈ shipmentDeltas shipments w := by
        rw [hne]
        exact List.mem_cons_self d ds
      unfold shipmentDeltas at hd
      rw [List.mem_filterMap] at hd
      obtain ⟨s, hs, hmatch⟩ := hd
      refine ⟨s, hs, ?_⟩
      cases hact : s.actual_delivery with
      | none => rw [hact] at hmatch; simp at hmatch
      | some a =>
        rw [hact] at hmatch
        by_cases hw : s.warehouse_id = w
        · simp [hw]
        · simp only [if_neg hw] at hmatch
          simp at hmatch

/-- C3 (amended): a warehouse with at least one delivered shipment is
mapped to the average of `actual_delivery − ship_date` over those
shipments unless that average is exactly 0, in which case the source's
truthiness test substitutes the default 5.0; a warehouse with no
delivered shipment is absent from the mapping. -/
theorem C3_average_shipment_time_lookup (shipments : List ShipmentRow) (w : String) :
    dictGet (get_average_shipment_time shipments) w =
      if shipmentDeltas shipments w = [] then none
      else some (if (shipmentDeltas shipments w).sum
            / ((shipmentDeltas shipments w).length : ℚ) = 0 then 5
          else (shipmentDeltas shipments w).sum
            / ((shipmentDeltas shipments w).length : ℚ)) := by
  unfold get_average_shipment_time
  rw [dictGet_map_keys]
  by_cases h : shipmentDeltas shipments w = []
  · rw [if_pos h]
    rw [if_neg]
    rw [List.mem_dedup, mem_shipKeys_iff]
    simpa using h
  · rw [if_neg h]
    rw [if_pos]
    rw [List.mem_dedup, mem_shipKeys_iff]
    exact h

/-- Example shipment for the C3 counterexample: delivered the day it
shipped, so the warehouse's average delivery time is exactly 0. -/
def shipC3 : ShipmentRow :=
  ⟨"S1", "O1", "W1", "CarrierA", ServiceLevel.Standard, ShipmentStatus.Delivered,
    10, 12, some 10, "TRK1"⟩

/-- C3 (counterexample): warehouse W1 has one delivered shipment and its
average delivery time is exactly 0, yet the extractor maps it to 5, not
to its average 0. -/
theorem C3_counterexample :
    get_average_shipment_time [shipC3] = [("W1", 5)] ∧
    (shipmentDeltas [shipC3] "W1").sum
      / ((shipmentDeltas [shipC3] "W1").length : ℚ) = 0 ∧
    (5 : ℚ) ≠ 0 :=
  ⟨by with_unfolding_all rfl, by with_unfolding_all rfl, by norm_num⟩

/-! ### Claims about the analytics aggregators -/

/-- C7: the shortage classifier is a total function — every inventory row
receives exactly one of the four statuses — and zero available stock is
always OUT_OF_STOCK, whatever the demand rate. -/
theorem C7_classifier_total (a : ℤ) (rate : ℚ) :
    (stock_status a rate = StockStatus.OUT_OF_STOCK ∨
     stock_status a rate = StockStatus.CRITICAL ∨
     stock_status a rate = StockStatus.LOW ∨
     stock_status a rate = StockStatus.ADEQUATE) ∧
    (a = 0 → stock_status a rate = StockStatus.OUT_OF_STOCK) := by
  constructor
  · unfold stock_status
    split
    · exact Or.inl rfl
    · split
      · exact Or.inr (Or.inl rfl)
      · split
        · exact Or.inr (Or.inr (Or.inl rfl))
        · exact Or.inr (Or.inr (Or.inr rfl))
  · intro ha
    unfold stock_status
    rw [if_pos ha]

/-- C7 (witness): the classifier evaluated at zero stock and demand
rate 3. -/
theorem C7_witness :
    (stock_status 0 3 = StockStatus.OUT_OF_STOCK ∨
     stock_status 0 3 = StockStatus.CRITICAL ∨
     stock_status 0 3 = StockStatus.LOW ∨
     stock_status 0 3 = StockStatus.ADEQUATE) ∧
    stock_status 0 3 = StockStatus.OUT_OF_STOCK :=
  ⟨(C7_classifier_total 0 3).1, (C7_classifier_total 0 3).2 rfl⟩

/-- C9: the top-selling-products aggregation returns at most 5 records
and they are sorted by total units sold in non-increasing order. -/
theorem C9_top5_sorted (products : List ProductRow) (orders : List OrderRow)
    (days now : ℤ) :
    (identify_top_selling_products products orders days now).length ≤ 5 ∧
    (identify_top_selling_products products orders days now).Chain'
      fun a b => b.total_units_sold ≤ a.total_units_sold := by
  unfold identify_top_selling_products
  constructor
  · exact List.length_take_le _ _
  · have hp := pairwise_sortDescBy (fun t : TopProductRow => (t.total_units_sold : ℚ))
    have hp2 : ∀ l : List TopProductRow,
        (sortDescBy (fun t : TopProductRow => (t.total_units_sold : ℚ)) l).Pairwise
          fun a b => b.total_units_sold ≤ a.total_units_sold :=
      fun l => (hp l).imp fun h => by exact_mod_cast h
    exact ((hp2 _).sublist (List.take_sublist 5 _)).chain'

theorem qualifyingSales_quantity {orders : List OrderRow} {shipments : List ShipmentRow}
    {cutoff : ℤ} {r : String × String × ℤ}
    (h : r ∈ qualifyingSales orders shipments cutoff) :
    ∃ o ∈ orders, r.2.2 = o.quantity := by
  unfold qualifyingSales at h
  rw [List.mem_flatMap] at h
  obtain ⟨o, ho, hr⟩ := h
  rw [List.mem_filterMap] at hr
  obtain ⟨s, _, hcond⟩ := hr
  refine ⟨o, ho, ?_⟩
  by_cases hP : s.order_id = o.order_id ∧ cutoff ≤ o.order_date ∧
      (o.order_status = OrderStatus.Shipped ∨ o.order_status = OrderStatus.Delivered)
  · rw [if_pos hP] at hcond
    rw [← Option.some.inj hcond]
  · rw [if_neg hP] at hcond
    simp at hcond

/-- C10: if every order quantity is at least 1 then every value of the
sales-velocity mapping is strictly positive, and the reorder point of any
pair computed from that mapping is strictly positive whenever
`avg_shipment_time + restock_threshold_days` is positive (the velocity is
either a positive mapping value or the positive default 0.1). -/
theorem C10_velocity_and_reorder_point_pos (orders : List OrderRow)
    (shipments : List ShipmentRow) (days now : ℤ) (hdays : 0 < days)
    (hq : ∀ o ∈ orders, 1 ≤ o.quantity) :
    (∀ kv ∈ calculate_sales_velocity orders shipments days now, 0 < kv.2) ∧
    (∀ (st : List (String × ℚ)) (rtd : ℤ) (p w : String),
      0 < avgShipmentTimeOf st w + (rtd : ℚ) →
      0 < reorderPointOf (calculate_sales_velocity orders shipments days now) st rtd p w) := by
  have hmain : ∀ kv ∈ calculate_sales_velocity orders shipments days now, 0 < kv.2 := by
    intro kv hkv
    simp only [calculate_sales_velocity, List.mem_map] at hkv
    obtain ⟨k, hk, hkv'⟩ := hkv
    subst hkv'
    rw [List.mem_dedup, List.mem_map] at hk
    obtain ⟨r0, hr0, hr0k⟩ := hk
    have hfil : r0 ∈ (qualifyingSales orders shipments (now - days)).filter
        fun r => decide ((r.1, r.2.1) = k) :=
      List.mem_filter.mpr ⟨hr0, decide_eq_true hr0k⟩
    have hmapne : ((qualifyingSales orders shipments (now - days)).filter
        (fun r => decide ((r.1, r.2.1) = k))).map (fun r => r.2.2) ≠ [] := by
      simp only [Ne, List.map_eq_nil_iff]
      exact List.ne_nil_of_mem hfil
    have hall : ∀ x ∈ ((qualifyingSales orders shipments (now - days)).filter
        (fun r => decide ((r.1, r.2.1) = k))).map (fun r => r.2.2), 1 ≤ x := by
      intro x hx
      rw [List.mem_map] at hx
      obtain ⟨r1, hr1, hx'⟩ := hx
      obtain ⟨o, ho, hqo⟩ := qualifyingSales_quantity (List.mem_filter.mp hr1).1
      rw [← hx', hqo]
      exact hq o ho
    have hsum := sum_pos_of_one_le hall hmapne
    have hcast : ∀ l : List (String × String × ℤ),
        (((l.map fun r => r.2.2).sum : ℤ) : ℚ) = (l.map fun r => ((r.2.2 : ℤ) : ℚ)).sum := by
      intro l
      induction l with
      | nil => simp
      | cons a t ih => simp [ih]
    have hsumq : (0 : ℚ) < (((qualifyingSales orders shipments (now - days)).filter
        (fun r => decide ((r.1, r.2.1) = k))).map fun r => ((r.2.2 : ℤ) : ℚ)).sum := by
      rw [← hcast]
      exact_mod_cast hsum
    have hdq : (0 : ℚ) < (days : ℚ) := by exact_mod_cast hdays
    rw [hcast]
    exact div_pos hsumq hdq
  refine ⟨hmain, ?_⟩
  intro st rtd p w hpos
  unfold reorderPointOf
  exact mul_pos (velocityOf_pos hmain p w) hpos

/-- Example order for the C10 witness. -/
def orderC10 : OrderRow := ⟨"O1", "C1", "P1", 100, OrderStatus.Shipped, 2⟩

/-- Example shipment for the C10 witness: joins to `orderC10` at
warehouse W1. -/
def shipC10 : ShipmentRow :=
  ⟨"S1", "O1", "W1", "CarrierA", ServiceLevel.Standard, ShipmentStatus.InTransit,
    101, 104, none, "TRK2"⟩

/-- C10 (witness): the positivity statement evaluated on a one-order,
one-shipment dataset at `days = 30`, `now = 110`. -/
theorem C10_witness :
    0 < ((calculate_sales_velocity [orderC10] [shipC10] 30 110).getD 0 (("", ""), 0)).2 ∧
    0 < reorderPointOf (calculate_sales_velocity [orderC10] [shipC10] 30 110) [] 7 "P1" "W1" :=
  ⟨(C10_velocity_and_reorder_point_pos [orderC10] [shipC10] 30 110 (by norm_num)
      (of_decide_eq_true (by with_unfolding_all rfl))).1 _
      (of_decide_eq_true (by with_unfolding_all rfl)),
   (C10_velocity_and_reorder_point_pos [orderC10] [shipC10] 30 110 (by norm_num)
      (of_decide_eq_true (by with_unfolding_all rfl))).2 [] 7 "P1" "W1"
      (by norm_num [avgShipmentTimeOf, dictGet])⟩

theorem onTimePercentage_bounds {g : List DeliveredShipment} (hg : g ≠ []) :
    0 ≤ onTimePercentage g ∧ onTimePercentage g ≤ 100 ∧
    (onTimePercentage g = 100 ↔
      ∀ d ∈ g, d.actual_delivery ≤ d.estimated_delivery) := by
  have hlen0 : 0 < g.length := List.length_pos.mpr hg
  have hlen : (0 : ℚ) < (g.length : ℚ) := by exact_mod_cast hlen0
  have hcle : (g.filter fun d =>
      decide (d.actual_delivery ≤ d.estimated_delivery)).length ≤ g.length :=
    List.length_filter_le _ _
  unfold onTimePercentage
  refine ⟨?_, ?_, ?_⟩
  · exact div_nonneg (by positivity) hlen.le
  · rw [div_le_iff hlen]
    have hc : ((g.filter fun d =>
        decide (d.actual_delivery ≤ d.estimated_delivery)).length : ℚ) ≤ (g.length : ℚ) := by
      exact_mod_cast hcle
    nlinarith
  · rw [div_eq_iff (ne_of_gt hlen)]
    constructor
    · intro hc
      have hceq : ((g.filter fun d =>
          decide (d.actual_delivery ≤ d.estimated_delivery)).length : ℚ) = (g.length : ℚ) := by
        linarith
      have hceq2 : (g.filter fun d =>
          decide (d.actual_delivery ≤ d.estimated_delivery)).length = g.length := by
        exact_mod_cast hceq
      have hfeq : (g.filter fun d =>
          decide (d.actual_delivery ≤ d.estimated_delivery)) = g :=
        List.Sublist.eq_of_length (List.filter_sublist g) hceq2
      intro d hd
      exact of_decide_eq_true (List.filter_eq_self.mp hfeq d hd)
    · intro hall
      have hfeq : (g.filter fun d =>
          decide (d.actual_delivery ≤ d.estimated_delivery)) = g :=
        List.filter_eq_self.mpr fun d hd => decide_eq_true (hall d hd)
      rw [hfeq]
      ring

theorem ccdp_mem {shipments : List ShipmentRow} {row : CarrierPerfRow}
    (h : row ∈ calculate_carrier_delivery_performance shipments) :
    carrierGroup shipments row.carrier_id row.service_level ≠ [] ∧
    row.on_time_percentage =
      round2 (onTimePercentage (carrierGroup shipments row.carrier_id row.service_level)) := by
  simp only [calculate_carrier_delivery_performance, List.mem_map] at h
  obtain ⟨k, hk, hrow⟩ := h
  subst hrow
  rw [List.mem_dedup, List.mem_map] at hk
  obtain ⟨d, hd, hdk⟩ := hk
  subst hdk
  constructor
  · apply List.ne_nil_of_mem (a := d)
    unfold carrierGroup
    rw [List.mem_filter]
    exact ⟨hd, by simp⟩
  · rfl

/-- C8: for every group row of the carrier performance table, the
returned on-time percentage lies in [0, 100], and the group's computed
on-time percentage (the SQL column, before display rounding) equals 100
iff every delivered shipment of the group has
`actual_delivery ≤ estimated_delivery`. -/
theorem C8_on_time_percentage_bounds (shipments : List ShipmentRow)
    (row : CarrierPerfRow)
    (h : row ∈ calculate_carrier_delivery_performance shipments) :
    (0 ≤ row.on_time_percentage ∧ row.on_time_percentage ≤ 100) ∧
    (onTimePercentage (carrierGroup shipments row.carrier_id row.service_level) = 100 ↔
      ∀ d ∈ carrierGroup shipments row.carrier_id row.service_level,
        d.actual_delivery ≤ d.estimated_delivery) := by
  obtain ⟨hne, hrow⟩ := ccdp_mem h
  obtain ⟨h0, h100, hiff⟩ := onTimePercentage_bounds hne
  exact ⟨⟨by rw [hrow]; exact round2_nonneg h0, by rw [hrow]; exact round2_le_100 h100⟩, hiff⟩

/-- Example shipments for the C8 witness: one on-time and one late
delivery in the same (CarrierA, Standard) group. -/
def shipsC8 : List ShipmentRow :=
  [⟨"S1", "O1", "W1", "CarrierA", ServiceLevel.Standard, ShipmentStatus.Delivered,
     0, 3, some 2, "T1"⟩,
   ⟨"S2", "O2", "W1", "CarrierA", ServiceLevel.Standard, ShipmentStatus.Delivered,
     0, 3, some 5, "T2"⟩]

/-- The single performance row on the C8 example input. -/
def rowC8 : CarrierPerfRow :=
  (calculate_carrier_delivery_performance shipsC8).getD 0
    ⟨"", ServiceLevel.Standard, 0, 0, 0, 0, 0, 0⟩

/-- C8 (witness): the bounds evaluated on the C8 example, whose group is
half on time. -/
theorem C8_witness :
    rowC8 ∈ calculate_carrier_delivery_performance shipsC8 ∧
    0 ≤ rowC8.on_time_percentage ∧ rowC8.on_time_percentage ≤ 100 :=
  ⟨of_decide_eq_true (by with_unfolding_all rfl),
   (C8_on_time_percentage_bounds shipsC8 rowC8
     (of_decide_eq_true (by with_unfolding_all rfl))).1⟩
